import Mathlib

/-!
Shallow embedding of scripts/place_and_route.py (FPGA-CAD-Framework).

The script benchmarks an external place-and-route tool: a Caller runs the
tool over circuits and seeds, extracts metrics from stdout with a regular
expression, accumulates samples, and computes geometric means; a
ParameterSweeper enumerates the cartesian product of option ranges, runs one
PlaceCaller per option set, and renders pareto-style comparison tables.

External library behaviour (subprocess execution, the regex engine, the
Mersenne-Twister stream behind the random module, and the filesystem acted
on by os.remove and shutil.rmtree) is packaged into an explicit environment
record Env; the scripts own logic is translated directly from the source.
Floating point samples are modelled as real numbers.
-/

namespace PlaceAndRoute

/-- errno.ENOENT (no such file or directory), as in the source comment. -/
def ENOENT : Nat := 2

/-- One replacement pass over a character list, fuel-indexed so that the
definition is structural (the fuel is always the length of the scanned
list, which bounds the number of steps).  Replaces every non-overlapping
occurrence of `pat` from the left, as Python str.replace does for a
non-empty pattern (both patterns used by the script are non-empty). -/
def replaceListAux (pat rep : List Char) : Nat → List Char → List Char
  | _, [] => []
  | 0, l => l
  | n + 1, c :: rest =>
    if !pat.isEmpty && pat.isPrefixOf (c :: rest) then
      rep ++ replaceListAux pat rep n ((c :: rest).drop pat.length)
    else
      c :: replaceListAux pat rep n rest

/-- Python str.replace for a non-empty pattern. -/
def strReplace (s pat rep : String) : String :=
  ⟨replaceListAux pat.data rep.data s.data.length s.data⟩

/-- Fuel-indexed splitter behind `strSplitOn`; `acc` is the current chunk in
reverse.  The fuel is the length of the remaining list. -/
def splitListAux (sep : List Char) : Nat → List Char → List Char → List (List Char)
  | _, acc, [] => [acc.reverse]
  | 0, acc, l => [acc.reverse ++ l]
  | n + 1, acc, c :: rest =>
    if !sep.isEmpty && sep.isPrefixOf (c :: rest) then
      acc.reverse :: splitListAux sep n [] ((c :: rest).drop sep.length)
    else
      splitListAux sep n (c :: acc) rest

/-- Python str.split with an explicit non-empty separator (adjacent
separators produce empty chunks, as in Python). -/
def strSplitOn (s sep : String) : List String :=
  (splitListAux sep.data s.data.length [] s.data).map (fun l => ⟨l⟩)

/-- Token substitution done inside Caller.call_circuit:
`token.replace('{circuit}', circuit).replace('{seed}', str(seed))`. -/
def substToken (tok circuit : String) (seed : Nat) : String :=
  strReplace (strReplace tok "{circuit}" circuit) "{seed}" (toString seed)

/-- The loop in Caller.call_circuit rewriting every token of the (copied)
command list. -/
def substCommand (command : List String) (circuit : String) (seed : Nat) : List String :=
  command.map (fun tok => substToken tok circuit seed)

/-- The environment: all behaviour of the Python standard library and of the
external tool that the script observes.
* `runProc cmd` — stdout and stderr of the subprocess spawned for `cmd`
  (subprocess.Popen + communicate, decoded).
* `matchStats pattern out` — result of re.compile(pattern, re.DOTALL)
  .search(out): `none` when there is no match, otherwise the value of each
  named capture group converted by float().
* `draw s i` — the i-th value of `random.randrange(2**31 - 1)` after
  `random.seed(s)`: the deterministic Mersenne-Twister stream.
* `removeErr p` — the errno raised by os.remove(p), `none` when it succeeds.
* `rmtreeErr p` — the errno raised by shutil.rmtree(p), `none` when it
  succeeds; shutil.rmtree raises ENOENT when the path does not exist. -/
structure Env where
  runProc : List String → String × String
  matchStats : String → String → Option (String → ℝ)
  draw : Nat → Nat → Nat
  removeErr : String → Option Nat
  rmtreeErr : String → Option Nat

/-- The nested mapping self.results: circuit → metric → list of samples.
Python dicts preserve insertion order, hence an ordered association list. -/
abbrev ResultsMap := List (String × List (String × List ℝ))

/-- Dictionary lookup (d[k] read). -/
def dictGet {α : Type} (d : List (String × α)) (k : String) : Option α :=
  match d.find? (fun p => p.1 == k) with
  | some p => some p.2
  | none => none

/-- Dictionary assignment d[k] = v: an existing key keeps its position, a
new key is appended, as in Python. -/
def dictSet {α : Type} : List (String × α) → String → α → List (String × α)
  | [], k, v => [(k, v)]
  | p :: rest, k, v => if p.1 == k then (k, v) :: rest else p :: dictSet rest k v

/-- In-place update of the value at key `k`.  Python raises KeyError when
the key is missing; every update in the script touches keys created by
call_all_circuits, so the missing-key branch (a no-op here) is unreachable. -/
def dictModify {α : Type} : List (String × α) → String → (α → α) → List (String × α)
  | [], _, _ => []
  | p :: rest, k, f => if p.1 == k then (p.1, f p.2) :: rest else p :: dictModify rest k f

/-- Read self.results[circuit][metric].  Python raises KeyError when a key
is missing; the script only reads keys initialised by call_all_circuits, so
the default branches are unreachable there. -/
def getSamples (r : ResultsMap) (circuit metric : String) : List ℝ :=
  match dictGet r circuit with
  | some d =>
    match dictGet d metric with
    | some l => l
    | none => []
  | none => []

/-- self.results[circuit][metric].append(v). -/
def appendSample (r : ResultsMap) (circuit metric : String) (v : ℝ) : ResultsMap :=
  dictModify r circuit (fun d => dictModify d metric (fun l => l ++ [v]))

/-- The initialisation loops of call_all_circuits: an empty sample list per
circuit per metric. -/
def initResults (circuits metrics : List String) : ResultsMap :=
  circuits.foldl (fun acc c => dictSet acc c (metrics.foldl (fun d m => dictSet d m []) [])) []

/-- The attributes of a Caller object.  `metrics` and `stats_regex` are class
attributes supplied by the subclass; `results`, `seeds` and `command` are
set by call_all_circuits. -/
structure CallerState where
  circuits : List String
  metrics : List String
  stats_regex : String
  results : ResultsMap
  seeds : List Nat
  command : List String

/-- Caller.__init__: the circuits string is split on single spaces. -/
def Caller.mkInit (metrics : List String) (stats_regex circuits : String) : CallerState :=
  { circuits := strSplitOn circuits " "
    metrics := metrics
    stats_regex := stats_regex
    results := []
    seeds := []
    command := [] }

/-- The two fatal exits of call_all_circuits_with_seed (sys.exit(1) after the
diagnostic prints): a non-empty stderr, or a stdout the pattern does not
match.  Each carries exactly what the script prints before exiting. -/
inductive ExitErr where
  | stderrFail (circuit err : String)
  | matchFail (out pattern : String)

/-- Caller.call_circuit: substitute the placeholders on a copy of the
command and run the subprocess, returning decoded stdout and stderr. -/
def call_circuit (env : Env) (command : List String) (circuit : String) (seed : Nat) :
    String × String :=
  env.runProc (substCommand command circuit seed)

/-- metric.lower().replace(' ', '_'): the named capture group for a metric. -/
def groupName (metric : String) : String := strReplace metric.toLower " " "_"

/-- The inner metric loop: append float(match.group(group_name)) for every
metric of the caller. -/
def recordMetrics (r : ResultsMap) (circuit : String) (metrics : List String)
    (groups : String → ℝ) : ResultsMap :=
  metrics.foldl (fun acc metric => appendSample acc circuit metric (groups (groupName metric))) r

/-- The circuit loop of call_all_circuits_with_seed.  For each circuit: run
the tool; a non-empty stderr exits the process; a non-matching stdout exits
the process; otherwise every metric sample is recorded and the loop
continues.  sys.exit is modelled by the error of the Except monad. -/
def processCircuits (env : Env) (metrics : List String) (pattern : String)
    (command : List String) (seed : Nat) :
    List String → ResultsMap → Except ExitErr ResultsMap
  | [], r => .ok r
  | circuit :: rest, r =>
    let oe := call_circuit env command circuit seed
    if oe.2 ≠ "" then
      .error (.stderrFail circuit oe.2)
    else
      match env.matchStats pattern oe.1 with
      | none => .error (.matchFail oe.1 pattern)
      | some groups =>
        processCircuits env metrics pattern command seed rest
          (recordMetrics r circuit metrics groups)

/-- Caller.call_all_circuits_with_seed.  self.command is set to the command
and the results dictionary is updated by the circuit loop. -/
def call_all_circuits_with_seed (env : Env) (st : CallerState) (command : List String)
    (seed : Nat) : Except ExitErr CallerState :=
  match processCircuits env st.metrics st.stats_regex command seed st.circuits st.results with
  | .error e => .error e
  | .ok r => .ok { st with command := command, results := r }

/-- The seed list of call_all_circuits: random.seed(1) followed by
num_random_seeds draws of random.randrange(2**31 - 1), i.e. the first
`num` values of the Mersenne-Twister stream for master seed 1, each
reduced below 2^31 - 1. -/
def derive_seeds (env : Env) (num : Nat) : List Nat :=
  (List.range num).map (fun i => env.draw 1 i % (2 ^ 31 - 1))

/-- Caller.call_all_circuits: reset the results table, derive the seed list,
then run call_all_circuits_with_seed for every seed in order. -/
def call_all_circuits (env : Env) (st : CallerState) (command : List String)
    (num : Nat) : Except ExitErr CallerState :=
  let st0 := { st with
    results := initResults st.circuits st.metrics
    seeds := derive_seeds env num }
  (derive_seeds env num).foldlM
    (fun s seed => call_all_circuits_with_seed env s command seed) st0

/-- scipy.stats.gmean: exp of the mean of the logs, which on positive
samples equals the n-th root of the product.  The script only feeds it
positive tool metrics. -/
noncomputable def gmean (l : List ℝ) : ℝ := l.prod ^ (l.length : ℝ)⁻¹

/-- Arithmetic mean of a list of reals (used to state what the pooled
geometric mean is NOT: the mean of per-circuit geometric means). -/
noncomputable def amean (l : List ℝ) : ℝ := l.sum / l.length

/-- Caller.get_command: ' '.join(self.command). -/
def get_command (st : CallerState) : String := String.intercalate " " st.command

/-- Caller.get_geomean: concatenate every circuits sample list for the
metric (the += loop) and take one geometric mean of the pooled sequence. -/
noncomputable def get_geomean (st : CallerState) (metric : String) : ℝ :=
  gmean (st.circuits.foldl (fun acc circuit => acc ++ getSamples st.results circuit metric) [])

/-- Caller.get_geomeans: the pooled geomean of every metric, in metric
order. -/
noncomputable def get_geomeans (st : CallerState) : List ℝ :=
  st.metrics.map (fun metric => get_geomean st metric)

/-- A CSV cell: Python rows mix strings and floats; csv.writer stringifies
both, and only the empty string renders as a blank cell. -/
inductive Cell where
  | str (s : String)
  | num (x : ℝ)

/-- A cell is blank exactly when it is the empty string; a float always
renders as a non-empty field. -/
def Cell.isBlank : Cell → Bool
  | .str s => s == ""
  | .num _ => false

/-- Python sorted() on strings: ascending lexicographic (by code point)
stable sort, modelled by insertion sort under the linear order on String. -/
def sortKeys (l : List String) : List String := List.insertionSort (fun a b => a ≤ b) l

/-- Caller.get_results: the header row
['benchmark'] + metrics + [joined command], then one row per circuit of
sorted(self.results) (the dict keys, sorted ascending) holding that
circuits per-metric geometric mean across its samples. -/
noncomputable def get_results (st : CallerState) : List (List Cell) :=
  (Cell.str "benchmark" :: (st.metrics.map Cell.str ++ [Cell.str (get_command st)])) ::
    (sortKeys (st.results.map Prod.fst)).map (fun circuit =>
      Cell.str circuit ::
        st.metrics.map (fun metric => Cell.num (gmean (getSamples st.results circuit metric))))

/-- The rows written by Caller.save_results: the results table, a blank
row, then the row labelled geomeans with the pooled geomean per metric. -/
noncomputable def caller_save_rows (st : CallerState) : List (List Cell) :=
  get_results st ++ [[]] ++ [Cell.str "geomeans" :: (get_geomeans st).map Cell.num]

/-- os.remove(filename) as observed through the environment. -/
def os_remove (env : Env) (filename : String) : Except Nat Unit :=
  match env.removeErr filename with
  | some e => .error e
  | none => .ok ()

/-- silentremove: ignore an OSError whose errno is ENOENT, re-raise any
other error. -/
def silentremove (env : Env) (filename : String) : Except Nat Unit :=
  match os_remove env filename with
  | .ok _ => .ok ()
  | .error e => if e ≠ ENOENT then .error e else .ok ()

/-- shutil.rmtree(path) as observed through the environment (raises ENOENT
for a missing path; no wrapper in the source catches it). -/
def shutil_rmtree (env : Env) (path : String) : Except Nat Unit :=
  match env.rmtreeErr path with
  | some e => .error e
  | none => .ok ()

/-- PlaceCaller.metrics. -/
def place_metrics : List String := ["runtime", "BB cost", "max delay"]

/-- PlaceCaller.stats_regex. -/
def place_stats_regex : String :=
  ".*time\\s+\\|\\s+(?P<runtime>[0-9.e+-]+).*BB cost\\s+\\|\\s+(?P<bb_cost>[0-9.e+-]+).*max delay\\s+\\|\\s+(?P<max_delay>[0-9.e+-]+)"

/-- A PlaceCaller object: the Caller attributes plus the architecture and
the circuit path template. -/
structure PlaceCallerState extends CallerState where
  architecture : String
  circuit : String

/-- os.path.join for the relative paths used here: insert a separator
unless the folder is empty or already ends with one. -/
def joinPath (a b : String) : String :=
  if a == "" then b
  else if a.data.getLast? = some '/' then a ++ b
  else a ++ "/" ++ b

/-- PlaceCaller.__init__. -/
def PlaceCaller.mkInit (architecture circuits_folder circuits : String) : PlaceCallerState :=
  { toCallerState := Caller.mkInit place_metrics place_stats_regex circuits
    architecture := architecture
    circuit := joinPath circuits_folder "{circuit}.blif" }

/-- PlaceCaller.build_command. -/
def build_command (architecture circuit : String) (options : List String) : List String :=
  ["java", "-cp", "bin", "interfaces.CLI", architecture, circuit,
    "--output_place_file", "tmp/{circuit}.place", "--random_seed", "{seed}"] ++ options

/-- How a PlaceCaller run can die: the sys.exit of the circuit loop, or an
uncaught OSError from shutil.rmtree. -/
inductive PlaceErr where
  | exited (e : ExitErr)
  | osFail (e : Nat)

/-- PlaceCaller.place_all: build the command, run every circuit over every
seed, then remove the tmp scratch directory (shutil.rmtree, uncaught). -/
def place_all (env : Env) (pc : PlaceCallerState) (options : List String)
    (num : Nat) : Except PlaceErr PlaceCallerState :=
  let command := build_command pc.architecture pc.circuit options
  match call_all_circuits env pc.toCallerState command num with
  | .error e => .error (.exited e)
  | .ok st =>
    match shutil_rmtree env "tmp" with
    | .error e => .error (.osFail e)
    | .ok _ => .ok { pc with toCallerState := st }

/-- The attributes of a ParameterSweeper object. -/
structure SweeperState where
  architecture : String
  circuits_folder : String
  circuits : String
  option_sets : List (List String)
  callers : List PlaceCallerState

/-- ParameterSweeper.__init__. -/
def Sweeper.mkInit (architecture circuits_folder circuits : String) : SweeperState :=
  { architecture := architecture
    circuits_folder := circuits_folder
    circuits := circuits
    option_sets := []
    callers := [] }

/-- itertools.product(*values): the rightmost sequence varies fastest. -/
def listProduct {α : Type} : List (List α) → List (List α)
  | [] => [[]]
  | l :: ls => l.flatMap (fun x => (listProduct ls).map (fun c => x :: c))

/-- ParameterSweeper.build_option_sets.  The option_ranges dict is modelled
as an ordered association list (name, candidate values); the inner index
loop pairs option_names[i] with option_value[i], i.e. flattens the zip of
names with one product tuple (the lengths agree for every product tuple). -/
def build_option_sets (option_ranges : List (String × List String)) : List (List String) :=
  (listProduct (option_ranges.map Prod.snd)).map (fun option_value =>
    ((option_ranges.map Prod.fst).zip option_value).foldl
      (fun acc p => acc ++ [p.1, p.2]) [])

/-- ParameterSweeper.sweep: build the option sets, then run one fresh
PlaceCaller per option set with fixed_options + option_set, collecting the
callers in option-set order. -/
def sweep (env : Env) (sw : SweeperState) (fixed_options : List String)
    (variable_options : List (String × List String)) (num : Nat) :
    Except PlaceErr SweeperState :=
  let sw0 := { sw with option_sets := build_option_sets variable_options }
  match sw0.option_sets.foldlM (fun callers option_set =>
      match place_all env (PlaceCaller.mkInit sw0.architecture sw0.circuits_folder sw0.circuits)
          (fixed_options ++ option_set) num with
      | .error e => Except.error e
      | .ok pc => Except.ok (callers ++ [pc])) ([] : List PlaceCallerState) with
  | .error e => .error e
  | .ok cs => .ok { sw0 with callers := cs }

/-- ' '.join(option_set): how one option set is rendered in a header. -/
def joinSpace (l : List String) : String := String.intercalate " " l

/-- Placeholder object for out-of-range list indexing (Python raises
IndexError there; no reachable use hits it). -/
def dummyCaller : CallerState :=
  { circuits := [], metrics := [], stats_regex := "", results := [], seeds := [], command := [] }

/-- Placeholder PlaceCaller for out-of-range indexing. -/
def dummyPlaceCaller : PlaceCallerState :=
  { toCallerState := dummyCaller, architecture := "", circuit := "" }

/-- self.callers[i] in get_pareto_table. -/
def nthCaller (sw : SweeperState) (i : Nat) : CallerState :=
  (sw.callers.getD i dummyPlaceCaller).toCallerState

/-- The i-th data row of a pareto table: the runtime geomean of caller i,
then i blank cells, then the geomean of the tables metric for caller i. -/
noncomputable def paretoRow (sw : SweeperState) (metric : String) (i : Nat) : List Cell :=
  Cell.num (get_geomean (nthCaller sw i) "runtime") ::
    (List.replicate i (Cell.str "") ++ [Cell.num (get_geomean (nthCaller sw i) metric)])

/-- ParameterSweeper.get_pareto_table: header [metric, rendered option
sets...], then one staircase data row per caller index. -/
noncomputable def get_pareto_table (sw : SweeperState) (metric : String) : List (List Cell) :=
  (Cell.str metric :: sw.option_sets.map (fun os => Cell.str (joinSpace os))) ::
    (List.range sw.callers.length).map (fun i => paretoRow sw metric i)

/-- A row of the sweep report.  The source appends two bare strings
(`rows += [''] * 2`) between the second pareto table and the per-caller
tables; csv.writerow iterates such a string, so the empty string serialises
as an empty record, but structurally it is not a list row. -/
inductive Row where
  | cells (cs : List Cell)
  | rawString (s : String)

/-- The first cell of a row when it is a string cell (used to look rows up
by their label, e.g. the geomeans row). -/
def rowLabel : Row → Option String
  | .cells (Cell.str s :: _) => some s
  | _ => none

/-- self.callers[0] in ParameterSweeper.save_results (IndexError when the
sweep ran no option set; unreachable after a completed sweep). -/
def headCallerState (sw : SweeperState) : CallerState :=
  (sw.callers.headD dummyPlaceCaller).toCallerState

/-- The seed header row text: 'Random seeds: ' + ', '.join(str(seed)...). -/
def seedsHeader (sw : SweeperState) : String :=
  "Random seeds: " ++ String.intercalate ", " ((headCallerState sw).seeds.map toString)

/-- The rows written by ParameterSweeper.save_results: seed header, pareto
table for BB cost, an empty row, pareto table for max delay, two bare
empty strings, then for each caller its get_results table followed by an
empty row. -/
noncomputable def sweeper_report_rows (sw : SweeperState) : List Row :=
  ([Row.cells [Cell.str (seedsHeader sw)]]
      ++ (get_pareto_table sw "BB cost").map Row.cells
      ++ [Row.cells []]
      ++ (get_pareto_table sw "max delay").map Row.cells
      ++ [Row.rawString "", Row.rawString ""])
    ++ sw.callers.foldl
      (fun acc caller =>
        acc ++ (get_results caller.toCallerState).map Row.cells ++ [Row.cells []]) []

/-- copy.deepcopy of the list held at reference r: allocate a fresh cell at
the end of the store holding a copy, and return its reference. -/
def deepcopyAt (σ : List (List String)) (r : Nat) : List (List String) × Nat :=
  (σ ++ [σ.getD r []], σ.length)

/-- Caller.call_circuit with Python list aliasing made explicit: the store σ
holds every live list, `cmdRef` is the callers reference to the command
template.  The body deep-copies the template, rewrites every token of the
copy in place, and runs the subprocess on the copy.  Returns the updated
store, the reference the body wrote through, and the captured output. -/
def call_circuit_store (env : Env) (σ : List (List String)) (cmdRef : Nat)
    (circuit : String) (seed : Nat) : (List (List String) × Nat) × (String × String) :=
  let copied := deepcopyAt σ cmdRef
  let σ1 := copied.1
  let ccRef := copied.2
  let σ2 := σ1.set ccRef (substCommand (σ1.getD ccRef []) circuit seed)
  ((σ2, ccRef), env.runProc (σ2.getD ccRef []))

/-! Concrete environments and states used to evaluate the definitions at
explicit inputs. -/

/-- An environment in which every invocation succeeds: empty stderr, a
stdout the pattern matches with every group reading 1.0, a trivial
deterministic random stream, and a filesystem where every removal
succeeds. -/
noncomputable def envGood : Env :=
  { runProc := fun _ => ("out", "")
    matchStats := fun _ _ => some (fun _ => (1 : ℝ))
    draw := fun s i => s + i
    removeErr := fun _ => none
    rmtreeErr := fun _ => none }

/-- A one-circuit, one-metric caller before any run. -/
def stDemo : CallerState := Caller.mkInit ["m"] "rx" "a"

/-- The state produced by running stDemo over two seeds under envGood. -/
noncomputable def stDemoOut : CallerState :=
  { circuits := ["a"]
    metrics := ["m"]
    stats_regex := "rx"
    results := [("a", [("m", [(1 : ℝ), (1 : ℝ)])])]
    seeds := [1, 2]
    command := ["run", "{circuit}"] }

/-- The PlaceCaller produced by the one-point demo sweep under envGood. -/
noncomputable def pcSweepOut : PlaceCallerState :=
  { toCallerState :=
      { circuits := ["a"]
        metrics := place_metrics
        stats_regex := place_stats_regex
        results := [("a", [("runtime", [(1 : ℝ)]), ("BB cost", [(1 : ℝ)]),
          ("max delay", [(1 : ℝ)])])]
        seeds := [1]
        command := ["java", "-cp", "bin", "interfaces.CLI", "arch", "lib/{circuit}.blif",
          "--output_place_file", "tmp/{circuit}.place", "--random_seed", "{seed}", "o", "1"] }
    architecture := "arch"
    circuit := "lib/{circuit}.blif" }

/-- The completed one-option-set demo sweep under envGood. -/
noncomputable def swDemoOut : SweeperState :=
  { architecture := "arch"
    circuits_folder := "lib"
    circuits := "a"
    option_sets := [["o", "1"]]
    callers := [pcSweepOut] }

/-- Accumulator exhibiting pooling: circuit a has samples 1, 1 and circuit
b has the single sample 4 for metric m. -/
noncomputable def stC1 : CallerState :=
  { circuits := ["a", "b"]
    metrics := ["m"]
    stats_regex := "rx"
    results := [("a", [("m", [(1 : ℝ), (1 : ℝ)])]), ("b", [("m", [(4 : ℝ)])])]
    seeds := []
    command := [] }

/-- A populated accumulator whose circuits were accumulated out of
alphabetical order (b before a). -/
noncomputable def stW : CallerState :=
  { circuits := ["b", "a"]
    metrics := ["m"]
    stats_regex := "rx"
    results := [("b", [("m", [(2 : ℝ)])]), ("a", [("m", [(3 : ℝ)])])]
    seeds := []
    command := ["c"] }

/-- The same samples as stW accumulated in the opposite order. -/
noncomputable def stWresultsPerm : ResultsMap :=
  [("a", [("m", [(3 : ℝ)])]), ("b", [("m", [(2 : ℝ)])])]

/-- Environment where the tool writes to stderr exactly for the circuit
named bad. -/
noncomputable def env7 : Env :=
  { runProc := fun args => if args.contains "bad" then ("", "boom") else ("good", "")
    matchStats := fun _ out => if out == "good" then some (fun _ => (1 : ℝ)) else none
    draw := fun s i => s + i
    removeErr := fun _ => none
    rmtreeErr := fun _ => none }

/-- A caller whose second circuit is the failing one. -/
def st7 : CallerState :=
  { circuits := ["ok1", "bad", "later"]
    metrics := ["m"]
    stats_regex := "rx"
    results := []
    seeds := []
    command := [] }

/-- Environment where the circuit named odd produces a stdout the pattern
does not match (and an empty stderr). -/
noncomputable def env8 : Env :=
  { runProc := fun args => if args.contains "odd" then ("weird", "") else ("good", "")
    matchStats := fun _ out => if out == "good" then some (fun _ => (1 : ℝ)) else none
    draw := fun s i => s + i
    removeErr := fun _ => none
    rmtreeErr := fun _ => none }

/-- A caller whose second circuit produces the unmatched stdout. -/
def st8 : CallerState :=
  { circuits := ["ok1", "odd", "later"]
    metrics := ["m"]
    stats_regex := "rx"
    results := []
    seeds := []
    command := [] }

/-- envGood with the tmp scratch directory absent: shutil.rmtree("tmp")
raises ENOENT. -/
noncomputable def envScratchAbsent : Env :=
  { envGood with rmtreeErr := fun p => if p == "tmp" then some ENOENT else none }

/-- A fresh demo PlaceCaller for the cleanup runs. -/
def demoPC9 : PlaceCallerState := PlaceCaller.mkInit "arch" "lib" "a"

/-- Caller state of demoPC9 after its circuits ran (one seed, envGood). -/
noncomputable def pc9mid : CallerState :=
  { circuits := ["a"]
    metrics := place_metrics
    stats_regex := place_stats_regex
    results := [("a", [("runtime", [(1 : ℝ)]), ("BB cost", [(1 : ℝ)]),
      ("max delay", [(1 : ℝ)])])]
    seeds := [1]
    command := ["java", "-cp", "bin", "interfaces.CLI", "arch", "lib/{circuit}.blif",
      "--output_place_file", "tmp/{circuit}.place", "--random_seed", "{seed}"] }

/-- demoPC9 after place_all with the scratch directory present. -/
noncomputable def pc9out : PlaceCallerState :=
  { toCallerState := pc9mid, architecture := "arch", circuit := "lib/{circuit}.blif" }

/-- A one-list store whose only reference holds a command template. -/
def storeW : List (List String) := [["{circuit}"]]

/-- envGood with os.remove failing with ENOENT on the path gone and with
errno 13 (permission denied) on the path locked. -/
noncomputable def envRm : Env :=
  { envGood with removeErr := fun p =>
      if p == "gone" then some ENOENT else if p == "locked" then some 13 else none }

/-! Helper lemmas. -/

/-- A left fold that appends `f x` per element builds the flattened map. -/
theorem foldl_append_flatten {α β : Type} (f : α → List β) :
    ∀ (l : List α) (init : List β),
      l.foldl (fun acc x => acc ++ f x) init = init ++ (l.map f).flatten := by
  intro l
  induction l with
  | nil => intro init; simp
  | cons a l ih => intro init; simp [ih]

/-- flatMap with singleton images is map. -/
theorem flatMap_single {α β : Type} (g : α → β) :
    ∀ l : List α, (l.flatMap fun x => [g x]) = l.map g
  | [] => rfl
  | a :: l => by simp [flatMap_single g l]

/-- Appending one more factor to a product makes it vary fastest: every
tuple of the shorter product is extended by each value of the new factor in
turn. -/
theorem listProduct_append_last {α : Type} (l : List α) :
    ∀ ls : List (List α),
      listProduct (ls ++ [l])
        = (listProduct ls).flatMap (fun c => l.map (fun x => c ++ [x])) := by
  intro ls
  induction ls with
  | nil => simp [listProduct, flatMap_single]
  | cons a ls ih =>
    show (a.flatMap fun x => (listProduct (ls ++ [l])).map (fun c => x :: c)) = _
    rw [ih]
    simp only [List.map_flatMap, List.flatMap_assoc, List.flatMap_map, List.map_map,
      listProduct]
    simp [Function.comp_def]

/-- Every tuple of a product has one component per factor. -/
theorem listProduct_length {α : Type} :
    ∀ (ls : List (List α)) (c : List α), c ∈ listProduct ls → c.length = ls.length := by
  intro ls
  induction ls with
  | nil => intro c hc; simp [listProduct] at hc; simp [hc]
  | cons a ls ih =>
    intro c hc
    simp only [listProduct, List.mem_flatMap, List.mem_map] at hc
    obtain ⟨x, -, c', hc', rfl⟩ := hc
    simp [ih c' hc']

/-- The inequality behind the pooling counterexample: the cube root of 4 is
not 5/2. -/
theorem four_rpow_inv_three_ne : (4 : ℝ) ^ ((1 : ℝ) / 3) ≠ 5 / 2 := by
  intro h
  have h3 : ((4 : ℝ) ^ ((1 : ℝ) / 3)) ^ (3 : ℕ) = 4 := by
    rw [← Real.rpow_natCast ((4 : ℝ) ^ ((1 : ℝ) / 3)) 3,
      ← Real.rpow_mul (by norm_num : (0 : ℝ) ≤ 4)]
    norm_num
  rw [h] at h3
  norm_num at h3

/-! Claim theorems. -/

/-- C1: For every populated accumulator and every metric, Caller.get_geomean
is the geometric mean of the single sequence obtained by concatenating every
circuits sample list for that metric, and there is a sample assignment (two
circuits with different sample counts) on which this pooled value differs
from the arithmetic mean of the per-circuit geometric means. -/
theorem pooled_geomean_spec :
    (∀ (st : CallerState) (metric : String),
        get_geomean st metric
          = gmean ((st.circuits.map (fun c => getSamples st.results c metric)).flatten))
    ∧ ∃ (st : CallerState) (metric : String),
        get_geomean st metric
          ≠ amean (st.circuits.map (fun c => gmean (getSamples st.results c metric))) := by
  constructor
  · intro st metric
    unfold get_geomean
    rw [foldl_append_flatten]
    simp
  · refine ⟨stC1, "m", ?_⟩
    have h1 : get_geomean stC1 "m" = gmean [(1 : ℝ), 1, 4] := rfl
    have h2 : stC1.circuits.map (fun c => gmean (getSamples stC1.results c "m"))
        = [gmean [(1 : ℝ), 1], gmean [(4 : ℝ)]] := rfl
    rw [h1, h2]
    simp only [gmean, amean, List.prod_cons, List.prod_nil, List.length_cons,
      List.length_nil, List.sum_cons, List.sum_nil]
    norm_num [Real.one_rpow, Real.rpow_one]
    exact four_rpow_inv_three_ne

/-- C3: build_option_sets enumerates the cartesian product as flat
[name, value, ...] token lists: on the concrete ranges a maps to 1, 2 and b
maps to x, y (declared in that order) it yields exactly the four sets in
last-varies-fastest order, and in general appending one more declared range
multiplies every existing option set by that ranges values, varying
fastest and keeping names in declaration order. -/
theorem option_sets_cartesian_order :
    (build_option_sets [("a", ["1", "2"]), ("b", ["x", "y"])]
        = [["a", "1", "b", "x"], ["a", "1", "b", "y"],
           ["a", "2", "b", "x"], ["a", "2", "b", "y"]])
    ∧ ∀ (rs : List (String × List String)) (n : String) (vs : List String),
        build_option_sets (rs ++ [(n, vs)])
          = (build_option_sets rs).flatMap (fun os => vs.map (fun v => os ++ [n, v])) := by
  constructor
  · rfl
  · intro rs n vs
    unfold build_option_sets
    simp only [List.map_append, List.map_cons, List.map_nil]
    rw [listProduct_append_last]
    rw [List.map_flatMap, List.flatMap_map]
    rw [List.flatMap_def, List.flatMap_def]
    congr 1
    apply List.map_congr_left
    intro c hc
    have hlen : (rs.map Prod.fst).length = c.length := by
      have := listProduct_length _ c hc
      simp only [List.length_map] at this ⊢
      exact this.symm
    rw [List.map_map]
    apply List.map_congr_left
    intro v _
    simp only [Function.comp_apply]
    rw [foldl_append_flatten, foldl_append_flatten, List.zip_append hlen]
    simp

/-- Destructuring a successful bind in the Except monad. -/
theorem except_bind_ok {ε α β : Type} (x : Except ε α) (f : α → Except ε β) (b : β)
    (h : (x >>= f) = .ok b) : ∃ a, x = .ok a ∧ f a = .ok b := by
  cases x with
  | error e =>
    simp only [Bind.bind, Except.bind] at h
    cases h
  | ok a => exact ⟨a, rfl, by simpa only [Bind.bind, Except.bind] using h⟩

/-- Binding after an error stays that error. -/
theorem except_bind_error {ε α β : Type} (e : ε) (f : α → Except ε β) :
    ((Except.error e : Except ε α) >>= f) = .error e := rfl

/-- A successful call_all_circuits_with_seed only rewrites command and
results: the seed list is untouched. -/
theorem with_seed_preserves_seeds (env : Env) (st st' : CallerState)
    (command : List String) (seed : Nat)
    (h : call_all_circuits_with_seed env st command seed = .ok st') :
    st'.seeds = st.seeds := by
  unfold call_all_circuits_with_seed at h
  cases hp : processCircuits env st.metrics st.stats_regex command seed st.circuits st.results with
  | error e => rw [hp] at h; cases h
  | ok r => rw [hp] at h; cases h; rfl

/-- The seed loop of call_all_circuits preserves the seed list. -/
theorem foldlM_with_seed_preserves_seeds (env : Env) (command : List String) :
    ∀ (seeds : List Nat) (st st' : CallerState),
      seeds.foldlM (fun s seed => call_all_circuits_with_seed env s command seed) st = .ok st' →
      st'.seeds = st.seeds := by
  intro seeds
  induction seeds with
  | nil => intro st st' h; cases h; rfl
  | cons s seeds ih =>
    intro st st' h
    rw [List.foldlM_cons] at h
    obtain ⟨mid, hmid, hrest⟩ := except_bind_ok _ _ _ h
    rw [ih mid st' hrest, with_seed_preserves_seeds env st mid command s hmid]

/-- A successful call_all_circuits leaves exactly the derived seed list in
the state. -/
theorem call_all_seeds (env : Env) (st st' : CallerState) (command : List String)
    (num : Nat) (h : call_all_circuits env st command num = .ok st') :
    st'.seeds = derive_seeds env num := by
  unfold call_all_circuits at h
  exact foldlM_with_seed_preserves_seeds env command (derive_seeds env num) _ st' h

/-- A successful place_all leaves the derived seed list in the caller. -/
theorem place_all_seeds (env : Env) (pc pc' : PlaceCallerState) (options : List String)
    (num : Nat) (h : place_all env pc options num = .ok pc') :
    pc'.toCallerState.seeds = derive_seeds env num := by
  unfold place_all at h
  dsimp only at h
  cases hc : call_all_circuits env pc.toCallerState
      (build_command pc.architecture pc.circuit options) num with
  | error e => rw [hc] at h; cases h
  | ok st =>
    rw [hc] at h
    cases hr : shutil_rmtree env "tmp" with
    | error e => rw [hr] at h; cases h
    | ok u => rw [hr] at h; cases h; exact call_all_seeds env _ _ _ _ hc

/-- Every caller accumulated by the sweep loop carries the derived seeds. -/
theorem sweep_fold_seeds (env : Env) (fixed_options : List String) (num : Nat)
    (arch folder circuits : String) :
    ∀ (osets : List (List String)) (acc cs : List PlaceCallerState),
      (osets.foldlM (fun callers option_set =>
          match place_all env (PlaceCaller.mkInit arch folder circuits)
              (fixed_options ++ option_set) num with
          | .error e => Except.error e
          | .ok pc => Except.ok (callers ++ [pc])) acc) = .ok cs →
      (∀ pc ∈ acc, pc.toCallerState.seeds = derive_seeds env num) →
      ∀ pc ∈ cs, pc.toCallerState.seeds = derive_seeds env num := by
  intro osets
  induction osets with
  | nil => intro acc cs h hacc; cases h; exact hacc
  | cons os osets ih =>
    intro acc cs h hacc
    rw [List.foldlM_cons] at h
    obtain ⟨mid, hmid, hrest⟩ := except_bind_ok _ _ _ h
    cases hp : place_all env (PlaceCaller.mkInit arch folder circuits)
        (fixed_options ++ os) num with
    | error e => rw [hp] at hmid; cases hmid
    | ok pc =>
      rw [hp] at hmid
      cases hmid
      refine ih _ cs hrest ?_
      intro q hq
      rcases List.mem_append.1 hq with hq | hq
      · exact hacc q hq
      · rw [List.mem_singleton] at hq
        subst hq
        exact place_all_seeds env _ _ _ _ hp

/-- C2: The seed sequence is a fixed list of N values determined only by
the environments Mersenne-Twister stream for master seed 1 and by N (so it
is identical on every repeated run): any successful call_all_circuits run,
whatever its starting state or command, ends with seeds = derive_seeds, and
every OptionSets accumulator produced by one sweep carries that same
sequence. -/
theorem seed_sequence_deterministic (env : Env) (num : Nat) :
    (derive_seeds env num).length = num
    ∧ (∀ (st st' : CallerState) (command : List String),
        call_all_circuits env st command num = .ok st' → st'.seeds = derive_seeds env num)
    ∧ ∀ (sw sw' : SweeperState) (fixed_options : List String)
        (variable_options : List (String × List String)),
        sweep env sw fixed_options variable_options num = .ok sw' →
        ∀ pc ∈ sw'.callers, pc.toCallerState.seeds = derive_seeds env num := by
  refine ⟨by simp [derive_seeds], ?_, ?_⟩
  · intro st st' command h
    exact call_all_seeds env st st' command num h
  · intro sw sw' fixed_options variable_options h
    unfold sweep at h
    dsimp only at h
    cases hf : (build_option_sets variable_options).foldlM (fun callers option_set =>
        match place_all env (PlaceCaller.mkInit sw.architecture sw.circuits_folder sw.circuits)
            (fixed_options ++ option_set) num with
        | .error e => Except.error e
        | .ok pc => Except.ok (callers ++ [pc])) ([] : List PlaceCallerState) with
    | error e => rw [hf] at h; cases h
    | ok cs =>
      rw [hf] at h
      cases h
      intro pc hpc
      exact sweep_fold_seeds env fixed_options num sw.architecture sw.circuits_folder
        sw.circuits (build_option_sets variable_options) [] cs hf (by intro q hq; cases hq) pc hpc

/-- Witness for C2 at concrete inputs: a two-seed caller run and a
one-option-set sweep under envGood, with the hypotheses discharged by
evaluation. -/
theorem seed_sequence_deterministic_witness :
    call_all_circuits envGood stDemo ["run", "{circuit}"] 2 = .ok stDemoOut
    ∧ stDemoOut.seeds = derive_seeds envGood 2
    ∧ sweep envGood (Sweeper.mkInit "arch" "lib" "a") [] [("o", ["1"])] 1 = .ok swDemoOut
    ∧ pcSweepOut.toCallerState.seeds = derive_seeds envGood 1 := by
  refine ⟨rfl, ?_, rfl, ?_⟩
  · exact (seed_sequence_deterministic envGood 2).2.1 stDemo stDemoOut ["run", "{circuit}"] rfl
  · exact (seed_sequence_deterministic envGood 1).2.2 (Sweeper.mkInit "arch" "lib" "a")
      swDemoOut [] [("o", ["1"])] rfl pcSweepOut (List.mem_singleton.2 rfl)

/-- Circuits that succeed (empty stderr, matching stdout) only advance the
accumulated results: the loop continues on the remaining circuits. -/
theorem processCircuits_ok_prefix (env : Env) (metrics : List String) (pattern : String)
    (command : List String) (seed : Nat) :
    ∀ (pre rest : List String) (r : ResultsMap),
      (∀ p ∈ pre, (call_circuit env command p seed).2 = ""
          ∧ (env.matchStats pattern (call_circuit env command p seed).1).isSome = true) →
      ∃ r', processCircuits env metrics pattern command seed (pre ++ rest) r
          = processCircuits env metrics pattern command seed rest r' := by
  intro pre
  induction pre with
  | nil => intro rest r _; exact ⟨r, rfl⟩
  | cons p pre ih =>
    intro rest r hpre
    obtain ⟨h1, h2⟩ := hpre p (List.mem_cons_self p pre)
    obtain ⟨g, hg⟩ := Option.isSome_iff_exists.1 h2
    have step : processCircuits env metrics pattern command seed ((p :: pre) ++ rest) r
        = processCircuits env metrics pattern command seed (pre ++ rest)
            (recordMetrics r p metrics g) := by
      show (let oe := call_circuit env command p seed
        if oe.2 ≠ "" then Except.error (.stderrFail p oe.2)
        else match env.matchStats pattern oe.1 with
          | none => Except.error (.matchFail oe.1 pattern)
          | some groups => processCircuits env metrics pattern command seed (pre ++ rest)
              (recordMetrics r p metrics groups)) = _
      rw [if_neg (by simp [h1])]
      rw [hg]
    rw [step]
    exact ih rest (recordMetrics r p metrics g)
      (fun q hq => hpre q (List.mem_cons_of_mem p hq))

/-- A circuit with non-empty stderr aborts the circuit loop with that
circuits name and stderr, whatever circuits follow and whatever was
accumulated. -/
theorem processCircuits_stderr (env : Env) (metrics : List String) (pattern : String)
    (command : List String) (seed : Nat) (pre : List String) (c : String)
    (post : List String) (r : ResultsMap)
    (hpre : ∀ p ∈ pre, (call_circuit env command p seed).2 = ""
        ∧ (env.matchStats pattern (call_circuit env command p seed).1).isSome = true)
    (hfail : (call_circuit env command c seed).2 ≠ "") :
    processCircuits env metrics pattern command seed (pre ++ c :: post) r
      = .error (.stderrFail c (call_circuit env command c seed).2) := by
  obtain ⟨r', hr⟩ := processCircuits_ok_prefix env metrics pattern command seed
    pre (c :: post) r hpre
  rw [hr]
  show (let oe := call_circuit env command c seed
    if oe.2 ≠ "" then Except.error (.stderrFail c oe.2)
    else match env.matchStats pattern oe.1 with
      | none => Except.error (.matchFail oe.1 pattern)
      | some groups => processCircuits env metrics pattern command seed post
          (recordMetrics r' c metrics groups)) = _
  rw [if_pos hfail]

/-- A circuit whose stdout the pattern does not match aborts the circuit
loop with that stdout and the pattern, whatever circuits follow and
whatever was accumulated. -/
theorem processCircuits_matchfail (env : Env) (metrics : List String) (pattern : String)
    (command : List String) (seed : Nat) (pre : List String) (c : String)
    (post : List String) (r : ResultsMap)
    (hpre : ∀ p ∈ pre, (call_circuit env command p seed).2 = ""
        ∧ (env.matchStats pattern (call_circuit env command p seed).1).isSome = true)
    (hcerr : (call_circuit env command c seed).2 = "")
    (hcmatch : env.matchStats pattern (call_circuit env command c seed).1 = none) :
    processCircuits env metrics pattern command seed (pre ++ c :: post) r
      = .error (.matchFail (call_circuit env command c seed).1 pattern) := by
  obtain ⟨r', hr⟩ := processCircuits_ok_prefix env metrics pattern command seed
    pre (c :: post) r hpre
  rw [hr]
  show (let oe := call_circuit env command c seed
    if oe.2 ≠ "" then Except.error (.stderrFail c oe.2)
    else match env.matchStats pattern oe.1 with
      | none => Except.error (.matchFail oe.1 pattern)
      | some groups => processCircuits env metrics pattern command seed post
          (recordMetrics r' c metrics groups)) = _
  rw [if_neg (by simp [hcerr]), hcmatch]

/-- C7: a non-empty stderr for some circuit makes the whole run exit
non-zero, reporting that circuits name and its stderr; no later circuit of
that seed pass is consulted (the conclusion holds for every tail `post`),
no metric of the failing or subsequent invocations is recorded, and no
result state is returned (the run ends in the error, never in an .ok
state); when the failure occurs under the first derived seed, the whole
call_all_circuits ends in that same error, processing no later seed. -/
theorem stderr_aborts_run (env : Env) (st : CallerState) (command : List String)
    (seed : Nat) (pre : List String) (c : String) (post : List String)
    (hsplit : st.circuits = pre ++ c :: post)
    (hpre : ∀ p ∈ pre, (call_circuit env command p seed).2 = ""
        ∧ (env.matchStats st.stats_regex (call_circuit env command p seed).1).isSome = true)
    (hfail : (call_circuit env command c seed).2 ≠ "") :
    call_all_circuits_with_seed env st command seed
      = .error (.stderrFail c (call_circuit env command c seed).2)
    ∧ ∀ (num : Nat) (restSeeds : List Nat), derive_seeds env num = seed :: restSeeds →
        call_all_circuits env st command num
          = .error (.stderrFail c (call_circuit env command c seed).2) := by
  have hws : ∀ st0 : CallerState, st0.circuits = st.circuits →
      st0.stats_regex = st.stats_regex →
      call_all_circuits_with_seed env st0 command seed
        = .error (.stderrFail c (call_circuit env command c seed).2) := by
    intro st0 hc hs
    unfold call_all_circuits_with_seed
    rw [hc, hs, hsplit, processCircuits_stderr env st0.metrics st.stats_regex command seed
      pre c post st0.results hpre hfail]
  refine ⟨hws st rfl rfl, ?_⟩
  intro num restSeeds hseeds
  unfold call_all_circuits
  dsimp only
  rw [hseeds, List.foldlM_cons]
  have hone := hws { st with results := initResults st.circuits st.metrics, seeds := seed :: restSeeds } rfl rfl
  rw [hone]
  rfl

/-- Witness for C7: under env7 the circuit bad (preceded by the succeeding
ok1, followed by later) writes boom to stderr; the with-seed pass and the
one-seed run both abort with that diagnostic. -/
theorem stderr_aborts_run_witness :
    st7.circuits = ["ok1"] ++ "bad" :: ["later"]
    ∧ (call_circuit env7 ["{circuit}"] "bad" 1).2 ≠ ""
    ∧ call_all_circuits_with_seed env7 st7 ["{circuit}"] 1
        = .error (.stderrFail "bad" (call_circuit env7 ["{circuit}"] "bad" 1).2)
    ∧ call_all_circuits env7 st7 ["{circuit}"] 1
        = .error (.stderrFail "bad" (call_circuit env7 ["{circuit}"] "bad" 1).2) := by
  have hpre : ∀ p ∈ ["ok1"], (call_circuit env7 ["{circuit}"] p 1).2 = ""
      ∧ (env7.matchStats st7.stats_regex (call_circuit env7 ["{circuit}"] p 1).1).isSome
        = true := by
    intro p hp
    rw [List.mem_singleton] at hp
    subst hp
    exact ⟨rfl, rfl⟩
  have h := stderr_aborts_run env7 st7 ["{circuit}"] 1 ["ok1"] "bad" ["later"] rfl hpre
    (by decide)
  exact ⟨rfl, by decide, h.1, h.2 1 [] rfl⟩

/-- C8: a stdout that the extraction pattern does not match (for a circuit
whose stderr is empty) makes the whole run exit non-zero carrying the full
stdout and the pattern; no value — default, zero or otherwise — is recorded
for any metric of that circuit, since the run ends in the error and returns
no result state; when the failure occurs under the first derived seed, the
whole call_all_circuits ends in that same error. -/
theorem match_failure_aborts_run (env : Env) (st : CallerState) (command : List String)
    (seed : Nat) (pre : List String) (c : String) (post : List String)
    (hsplit : st.circuits = pre ++ c :: post)
    (hpre : ∀ p ∈ pre, (call_circuit env command p seed).2 = ""
        ∧ (env.matchStats st.stats_regex (call_circuit env command p seed).1).isSome = true)
    (hcerr : (call_circuit env command c seed).2 = "")
    (hcmatch : env.matchStats st.stats_regex (call_circuit env command c seed).1 = none) :
    call_all_circuits_with_seed env st command seed
      = .error (.matchFail (call_circuit env command c seed).1 st.stats_regex)
    ∧ ∀ (num : Nat) (restSeeds : List Nat), derive_seeds env num = seed :: restSeeds →
        call_all_circuits env st command num
          = .error (.matchFail (call_circuit env command c seed).1 st.stats_regex) := by
  have hws : ∀ st0 : CallerState, st0.circuits = st.circuits →
      st0.stats_regex = st.stats_regex →
      call_all_circuits_with_seed env st0 command seed
        = .error (.matchFail (call_circuit env command c seed).1 st.stats_regex) := by
    intro st0 hc hs
    unfold call_all_circuits_with_seed
    rw [hc, hs, hsplit, processCircuits_matchfail env st0.metrics st.stats_regex command seed
      pre c post st0.results hpre hcerr hcmatch]
  refine ⟨hws st rfl rfl, ?_⟩
  intro num restSeeds hseeds
  unfold call_all_circuits
  dsimp only
  rw [hseeds, List.foldlM_cons]
  have hone := hws { st with results := initResults st.circuits st.metrics, seeds := seed :: restSeeds } rfl rfl
  rw [hone]
  rfl

/-- Witness for C8: under env8 the circuit odd (preceded by the succeeding
ok1) produces the stdout weird, which the pattern does not match; the
with-seed pass and the one-seed run abort carrying that stdout and the
pattern. -/
theorem match_failure_aborts_run_witness :
    st8.circuits = ["ok1"] ++ "odd" :: ["later"]
    ∧ (call_circuit env8 ["{circuit}"] "odd" 1).2 = ""
    ∧ env8.matchStats st8.stats_regex (call_circuit env8 ["{circuit}"] "odd" 1).1 = none
    ∧ call_all_circuits_with_seed env8 st8 ["{circuit}"] 1
        = .error (.matchFail (call_circuit env8 ["{circuit}"] "odd" 1).1 st8.stats_regex)
    ∧ call_all_circuits env8 st8 ["{circuit}"] 1
        = .error (.matchFail (call_circuit env8 ["{circuit}"] "odd" 1).1 st8.stats_regex) := by
  have hpre : ∀ p ∈ ["ok1"], (call_circuit env8 ["{circuit}"] p 1).2 = ""
      ∧ (env8.matchStats st8.stats_regex (call_circuit env8 ["{circuit}"] p 1).1).isSome
        = true := by
    intro p hp
    rw [List.mem_singleton] at hp
    subst hp
    exact ⟨rfl, rfl⟩
  have h := match_failure_aborts_run env8 st8 ["{circuit}"] 1 ["ok1"] "odd" ["later"]
    rfl hpre rfl rfl
  exact ⟨rfl, rfl, rfl, h.1, h.2 1 [] rfl⟩

/-- C9 counterexample: two environments identical except that in one the
tmp scratch path is absent (rmtree raises ENOENT there); place_all fails in
the absent-path run and succeeds in the present-path run, so a run whose
scratch path is absent does NOT behave identically to one where it is
present. -/
theorem scratch_cleanup_not_idempotent_cex :
    place_all envScratchAbsent demoPC9 [] 1 = .error (.osFail ENOENT)
    ∧ place_all envGood demoPC9 [] 1 = .ok pc9out
    ∧ envScratchAbsent.runProc = envGood.runProc
    ∧ envScratchAbsent.matchStats = envGood.matchStats
    ∧ envScratchAbsent.draw = envGood.draw
    ∧ envScratchAbsent.removeErr = envGood.removeErr :=
  ⟨rfl, rfl, rfl, rfl, rfl, rfl⟩

/-- C9 (amended): silentremove is the idempotent wrapper — it swallows an
os.remove error exactly when the errno is ENOENT (path does not exist) and
re-raises any other errno — but the scratch cleanup of place_all calls
shutil.rmtree("tmp") unwrapped, so when the scratch path is absent (rmtree
raises ENOENT) an otherwise-successful configuration run terminates with
that OSError instead of behaving as when the path is present. -/
theorem silentremove_enoent_and_rmtree_raises (env : Env) (fn : String) :
    (env.removeErr fn = some ENOENT → silentremove env fn = .ok ())
    ∧ (∀ e, env.removeErr fn = some e → e ≠ ENOENT → silentremove env fn = .error e)
    ∧ (env.removeErr fn = none → silentremove env fn = .ok ())
    ∧ ∀ (pc : PlaceCallerState) (options : List String) (num : Nat) (st' : CallerState),
        env.rmtreeErr "tmp" = some ENOENT →
        call_all_circuits env pc.toCallerState
            (build_command pc.architecture pc.circuit options) num = .ok st' →
        place_all env pc options num = .error (.osFail ENOENT) := by
  refine ⟨?_, ?_, ?_, ?_⟩
  · intro h
    unfold silentremove os_remove
    rw [h]
    rfl
  · intro e h hne
    unfold silentremove os_remove
    rw [h]
    show (if e ≠ ENOENT then Except.error e else Except.ok ()) = Except.error e
    rw [if_pos hne]
  · intro h
    unfold silentremove os_remove
    rw [h]
  · intro pc options num st' hrm hcall
    unfold place_all
    dsimp only
    rw [hcall]
    unfold shutil_rmtree
    rw [hrm]

/-- Witness for C9 (amended), at concrete inputs: envRm swallows the ENOENT
removal of gone, re-raises errno 13 on locked, and envScratchAbsent makes
the otherwise-successful demoPC9 run die in the scratch cleanup. -/
theorem silentremove_enoent_and_rmtree_raises_witness :
    envRm.removeErr "gone" = some ENOENT
    ∧ silentremove envRm "gone" = .ok ()
    ∧ envRm.removeErr "locked" = some 13
    ∧ silentremove envRm "locked" = .error 13
    ∧ envScratchAbsent.rmtreeErr "tmp" = some ENOENT
    ∧ call_all_circuits envScratchAbsent demoPC9.toCallerState
        (build_command demoPC9.architecture demoPC9.circuit []) 1 = .ok pc9mid
    ∧ place_all envScratchAbsent demoPC9 [] 1 = .error (.osFail ENOENT) := by
  refine ⟨rfl, ?_, rfl, ?_, rfl, rfl, ?_⟩
  · exact (silentremove_enoent_and_rmtree_raises envRm "gone").1 rfl
  · exact (silentremove_enoent_and_rmtree_raises envRm "locked").2.1 13 rfl (by decide)
  · exact (silentremove_enoent_and_rmtree_raises envScratchAbsent "x").2.2.2
      demoPC9 [] 1 pc9mid rfl rfl

/-- Writing the substituted copy into the freshly allocated cell neither
changes any existing cell nor reads anything but the copied template. -/
theorem store_write_fresh (c : String) (s : Nat) (τ : List (List String)) (j : Nat)
    (hj : j < τ.length) :
    ((τ ++ [τ.getD j []]).set τ.length
        (substCommand ((τ ++ [τ.getD j []]).getD τ.length []) c s)).getD j []
      = τ.getD j []
    ∧ ((τ ++ [τ.getD j []]).set τ.length
        (substCommand ((τ ++ [τ.getD j []]).getD τ.length []) c s)).getD τ.length []
      = substCommand (τ.getD j []) c s := by
  have hro : (τ ++ [τ.getD j []]).getD τ.length [] = τ.getD j [] := by
    simp [List.getD_eq_getElem?_getD, List.getElem?_append_right (Nat.le_refl τ.length)]
  constructor
  · simp only [List.getD_eq_getElem?_getD]
    rw [List.getElem?_set_ne (by omega : τ.length ≠ j)]
    rw [List.getElem?_append_left hj]
  · rw [hro]
    simp only [List.getD_eq_getElem?_getD]
    rw [List.getElem?_set_self (by simp)]
    rfl

/-- One store-level call: the callers cell is untouched, the store grows by
the one copied cell, and the output is the pure call on the template. -/
theorem call_circuit_store_spec (env : Env) (τ : List (List String)) (j : Nat)
    (c : String) (s : Nat) (hj : j < τ.length) :
    ((call_circuit_store env τ j c s).1.1).getD j [] = τ.getD j []
    ∧ ((call_circuit_store env τ j c s).1.1).length = τ.length + 1
    ∧ (call_circuit_store env τ j c s).2 = call_circuit env (τ.getD j []) c s := by
  obtain ⟨ha, hb⟩ := store_write_fresh c s τ j hj
  unfold call_circuit_store deepcopyAt
  dsimp only
  refine ⟨ha, by simp, ?_⟩
  rw [hb]
  rfl

/-- C10: call_circuit substitutes the placeholders on a deep copy of the
command, so the list the caller holds is unchanged by the call (same
contents at the same reference), the call runs the subprocess on the
substituted copy of that template, and a subsequent call through the same
reference for another circuit and seed sees the verbatim template again. -/
theorem call_circuit_preserves_command (env : Env) (σ : List (List String)) (r : Nat)
    (circuit : String) (seed : Nat) (h : r < σ.length) :
    ((call_circuit_store env σ r circuit seed).1.1).getD r [] = σ.getD r []
    ∧ (call_circuit_store env σ r circuit seed).2
        = call_circuit env (σ.getD r []) circuit seed
    ∧ ∀ (circuit2 : String) (seed2 : Nat),
        (call_circuit_store env ((call_circuit_store env σ r circuit seed).1.1) r
            circuit2 seed2).2
          = call_circuit env (σ.getD r []) circuit2 seed2 := by
  obtain ⟨ha, hlen, hout⟩ := call_circuit_store_spec env σ r circuit seed h
  refine ⟨ha, hout, ?_⟩
  intro circuit2 seed2
  obtain ⟨ha2, hlen2, hout2⟩ := call_circuit_store_spec env
    ((call_circuit_store env σ r circuit seed).1.1) r circuit2 seed2 (by rw [hlen]; omega)
  rw [hout2, ha]

/-- Witness for C10 at a concrete store: the single command template is
unchanged by a call and the output is the pure call on it. -/
theorem call_circuit_preserves_command_witness :
    0 < storeW.length
    ∧ ((call_circuit_store envGood storeW 0 "a" 5).1.1).getD 0 [] = storeW.getD 0 []
    ∧ (call_circuit_store envGood storeW 0 "a" 5).2
        = call_circuit envGood (storeW.getD 0 []) "a" 5 := by
  refine ⟨by decide, ?_, ?_⟩
  · exact (call_circuit_preserves_command envGood storeW 0 "a" 5 (by decide)).1
  · exact (call_circuit_preserves_command envGood storeW 0 "a" 5 (by decide)).2.1

/-- C4: the pareto table for metric M has header [M, rendered option set 1,
..., rendered option set k]; its i-th data row (row i+1 of the table) is
exactly caller is runtime geomean followed by i blanks and then Ms geomean,
so the row has i+2 cells, the metric geomean sits in column i+1, and among
the columns 1..i+1 (between column 0 and the final column inclusive)
exactly the cell at position i+1 is non-blank. -/
theorem pareto_table_shape (sw : SweeperState) (metric : String) :
    (get_pareto_table sw metric)[0]?
      = some (Cell.str metric :: sw.option_sets.map (fun os => Cell.str (joinSpace os)))
    ∧ ∀ i, i < sw.callers.length →
        (get_pareto_table sw metric)[i + 1]? = some (paretoRow sw metric i)
        ∧ (paretoRow sw metric i).length = i + 2
        ∧ (paretoRow sw metric i)[0]?
            = some (Cell.num (get_geomean (nthCaller sw i) "runtime"))
        ∧ (paretoRow sw metric i)[i + 1]?
            = some (Cell.num (get_geomean (nthCaller sw i) metric))
        ∧ ∀ j cell, 1 ≤ j → (paretoRow sw metric i)[j]? = some cell →
            (cell.isBlank = false ↔ j = i + 1) := by
  constructor
  · unfold get_pareto_table
    rw [List.getElem?_cons_zero]
  intro i hi
  refine ⟨?_, ?_, ?_, ?_, ?_⟩
  · unfold get_pareto_table
    rw [List.getElem?_cons_succ, List.getElem?_map, List.getElem?_range hi]
    rfl
  · unfold paretoRow
    simp
  · unfold paretoRow
    rw [List.getElem?_cons_zero]
  · unfold paretoRow
    rw [List.getElem?_cons_succ,
      List.getElem?_append_right (by simp : (List.replicate i (Cell.str "")).length ≤ i)]
    simp
  · intro j cell h1 h2
    obtain ⟨k, rfl⟩ : ∃ k, j = k + 1 := ⟨j - 1, by omega⟩
    unfold paretoRow at h2
    rw [List.getElem?_cons_succ] at h2
    rcases Nat.lt_trichotomy k i with hk | hk | hk
    · rw [List.getElem?_append_left (by simpa using hk), List.getElem?_replicate,
        if_pos hk] at h2
      injection h2 with h2
      subst h2
      simp only [Cell.isBlank, beq_self_eq_true]
      constructor
      · intro habs; cases habs
      · intro habs; omega
    · subst hk
      rw [List.getElem?_append_right (by simp)] at h2
      simp only [List.length_replicate, Nat.sub_self, List.getElem?_cons_zero] at h2
      injection h2 with h2
      subst h2
      simp [Cell.isBlank]
    · have hnone : (List.replicate i (Cell.str "")
          ++ [Cell.num (get_geomean (nthCaller sw i) metric)])[k]? = none := by
        apply List.getElem?_eq_none
        simp only [List.length_append, List.length_replicate, List.length_cons,
          List.length_nil]
        omega
      rw [hnone] at h2
      cases h2

/-- Witness for C4 at the completed demo sweep: its single caller (index 0)
yields data row [runtime geomean, BB cost geomean], whose cell at position
0 + 1 is the non-blank BB cost geomean. -/
theorem pareto_table_shape_witness :
    0 < swDemoOut.callers.length
    ∧ (get_pareto_table swDemoOut "BB cost")[1]? = some (paretoRow swDemoOut "BB cost" 0)
    ∧ (paretoRow swDemoOut "BB cost" 0)[1]?
        = some (Cell.num (get_geomean (nthCaller swDemoOut 0) "BB cost"))
    ∧ ((Cell.num (get_geomean (nthCaller swDemoOut 0) "BB cost")).isBlank = false
        ↔ 1 = 0 + 1) := by
  have h0 : 0 < swDemoOut.callers.length := by decide
  have h := (pareto_table_shape swDemoOut "BB cost").2 0 h0
  exact ⟨h0, h.1, h.2.2.2.1, h.2.2.2.2 1 _ (by omega) h.2.2.2.1⟩

/-- With no duplicate keys, a key lookup is invariant under reordering of
the entries. -/
theorem find?_key_perm {α : Type} :
    ∀ {l l' : List (String × α)}, l.Perm l' → (l.map Prod.fst).Nodup →
      ∀ k, l.find? (fun p => p.1 == k) = l'.find? (fun p => p.1 == k) := by
  intro l l' h
  induction h with
  | nil => intro _ k; rfl
  | cons x h ih =>
    intro hnd k
    rw [List.find?_cons, List.find?_cons]
    have hnd' : ∀ q, q.Nodup → (x.1 :: q).Nodup → True := fun _ _ _ => trivial
    cases hx : (x.1 == k)
    · have htl : (List.map Prod.fst _).Nodup :=
        (List.nodup_cons.1 (by simpa using hnd)).2
      simpa using ih htl k
    · rfl
  | swap x y l =>
    intro hnd k
    have hxy : y.1 ≠ x.1 := by
      simp only [List.map_cons, List.nodup_cons, List.mem_cons] at hnd
      exact fun he => hnd.1 (Or.inl he)
    rw [List.find?_cons, List.find?_cons, List.find?_cons, List.find?_cons]
    cases hx : (x.1 == k) <;> cases hy : (y.1 == k) <;> simp [hx, hy]
    exact absurd (by rw [beq_iff_eq] at hx hy; rw [hy, hx]) hxy
  | trans h1 h2 ih1 ih2 =>
    intro hnd k
    rw [ih1 hnd k, ih2 ((h1.map Prod.fst).nodup_iff.1 hnd) k]

/-- Sample lookup is invariant under reordering of the results entries. -/
theorem getSamples_perm (l l' : ResultsMap) (h : l.Perm l')
    (hnd : (l.map Prod.fst).Nodup) (circuit metric : String) :
    getSamples l circuit metric = getSamples l' circuit metric := by
  unfold getSamples dictGet
  rw [find?_key_perm h hnd circuit]

/-- Sorting is determined by the multiset of keys. -/
theorem sortKeys_eq_of_perm (l l' : List String) (h : l.Perm l') :
    sortKeys l = sortKeys l' := by
  unfold sortKeys
  have h1 := List.sorted_insertionSort (fun a b : String => a ≤ b) l
  have h2 := List.sorted_insertionSort (fun a b : String => a ≤ b) l'
  have hp := (List.perm_insertionSort (fun a b : String => a ≤ b) l).trans
    (h.trans (List.perm_insertionSort (fun a b : String => a ≤ b) l').symm)
  exact List.eq_of_perm_of_sorted hp h1 h2

/-- C5: get_results starts with the header row [benchmark, each metric, the
joined command string]; the remaining rows are one per results key (one per
circuit), listed in ascending sorted order of circuit name and carrying that
circuits per-metric geometric mean; and the table is invariant under the
order in which circuits were accumulated (any permutation of the results
entries, given distinct keys, yields the identical table). -/
theorem results_table_sorted (st : CallerState) :
    (get_results st)[0]?
      = some (Cell.str "benchmark" :: (st.metrics.map Cell.str ++ [Cell.str (get_command st)]))
    ∧ (get_results st).tail
        = (sortKeys (st.results.map Prod.fst)).map (fun circuit =>
            Cell.str circuit :: st.metrics.map (fun metric =>
              Cell.num (gmean (getSamples st.results circuit metric))))
    ∧ List.Sorted (fun a b : String => a ≤ b) (sortKeys (st.results.map Prod.fst))
    ∧ ∀ results' : ResultsMap, results'.Perm st.results →
        (st.results.map Prod.fst).Nodup →
        get_results { st with results := results' } = get_results st := by
  refine ⟨by unfold get_results; rw [List.getElem?_cons_zero], rfl,
    List.sorted_insertionSort _ _, ?_⟩
  intro results' hperm hnd
  unfold get_results
  dsimp only
  have hkeys : sortKeys (results'.map Prod.fst) = sortKeys (st.results.map Prod.fst) :=
    sortKeys_eq_of_perm _ _ (hperm.map Prod.fst)
  rw [hkeys]
  congr 1
  apply List.map_congr_left
  intro c hc
  congr 1
  apply List.map_congr_left
  intro m hm
  rw [getSamples_perm results' st.results hperm
    (((hperm.map Prod.fst).nodup_iff).2 hnd) c m]

/-- Witness for C5: the two-circuit accumulator stW (accumulated b before
a) produces the same table when its entries are reversed. -/
theorem results_table_sorted_witness :
    stWresultsPerm.Perm stW.results
    ∧ (stW.results.map Prod.fst).Nodup
    ∧ get_results { stW with results := stWresultsPerm } = get_results stW := by
  have hperm : stWresultsPerm.Perm stW.results :=
    List.Perm.swap ("b", [("m", [(2 : ℝ)])]) ("a", [("m", [(3 : ℝ)])]) []
  exact ⟨hperm, by decide,
    (results_table_sorted stW).2.2.2 stWresultsPerm hperm (by decide)⟩

/-- The seeds header can never read geomeans. -/
theorem random_seeds_prefix_ne (s : String) : "Random seeds: " ++ s ≠ "geomeans" := by
  intro h
  have hd : ("Random seeds: " ++ s).data.length = "geomeans".data.length := by rw [h]
  rw [show ("Random seeds: " ++ s).data = "Random seeds: ".data ++ s.data from rfl] at hd
  rw [List.length_append] at hd
  rw [show ("Random seeds: ".data.length) = 14 from rfl,
    show ("geomeans".data.length) = 8 from rfl] at hd
  omega

/-- Every pareto-table row is labelled by the tables metric (the header) or
starts with a numeric cell (the data rows). -/
theorem pareto_row_label (sw : SweeperState) (metric : String) (row : List Cell)
    (hrow : row ∈ get_pareto_table sw metric) :
    rowLabel (Row.cells row) = some metric ∨ rowLabel (Row.cells row) = none := by
  unfold get_pareto_table at hrow
  rcases List.mem_cons.1 hrow with rfl | hrow
  · left; rfl
  · obtain ⟨i, -, rfl⟩ := List.mem_map.1 hrow
    right; rfl

/-- Every get_results row is the benchmark header or is labelled by one of
the results keys (a circuit name). -/
theorem get_results_row_label (st : CallerState) (row : List Cell)
    (hrow : row ∈ get_results st) :
    rowLabel (Row.cells row) = some "benchmark"
    ∨ ∃ circuit ∈ st.results.map Prod.fst, rowLabel (Row.cells row) = some circuit := by
  unfold get_results at hrow
  rcases List.mem_cons.1 hrow with rfl | hrow
  · left; rfl
  · obtain ⟨c, hc, rfl⟩ := List.mem_map.1 hrow
    unfold sortKeys at hc
    exact Or.inr ⟨c, (List.perm_insertionSort _ _).mem_iff.1 hc, rfl⟩

/-- The final caller loop of save_results appends one block per caller:
its get_results table then one empty row. -/
theorem foldl_blocks_flatten :
    ∀ (callers : List PlaceCallerState) (init : List Row),
      callers.foldl (fun acc caller =>
        acc ++ (get_results caller.toCallerState).map Row.cells ++ [Row.cells []]) init
      = init ++ (callers.map (fun caller =>
          (get_results caller.toCallerState).map Row.cells ++ [Row.cells []])).flatten := by
  intro callers
  induction callers with
  | nil => intro init; simp
  | cons c cs ih =>
    intro init
    rw [List.foldl_cons, ih]
    simp [List.append_assoc]

/-- C6 counterexample: the report of the completed demo sweep contains no
row labelled geomeans at all — contradicting the claim that each
configuration block includes the row labelled geomeans (the geomeans row
exists only in Caller.save_results, which the sweep report does not use). -/
theorem sweep_report_no_geomeans_row_cex :
    (sweeper_report_rows swDemoOut).all (fun r => !(rowLabel r == some "geomeans")) = true
    ∧ ((caller_save_rows pcSweepOut.toCallerState).map
        (fun row => rowLabel (Row.cells row))).contains (some "geomeans") = true := by
  exact ⟨by decide, by decide⟩

/-- C6 (amended): the final report is the seed-list header row, the pareto
table for BB cost, a blank row, the pareto table for max delay, two blank
records, then each configurations get_results table in OptionSet order,
each followed by a blank row — the per-configuration blocks do NOT include
the geomeans row (nor its preceding blank separator): provided no circuit
is literally named geomeans, no row of the report is labelled geomeans. -/
theorem sweep_report_structure (sw : SweeperState) :
    sweeper_report_rows sw
      = [Row.cells [Cell.str (seedsHeader sw)]]
        ++ (get_pareto_table sw "BB cost").map Row.cells
        ++ [Row.cells []]
        ++ (get_pareto_table sw "max delay").map Row.cells
        ++ [Row.rawString "", Row.rawString ""]
        ++ (sw.callers.map (fun caller =>
            (get_results caller.toCallerState).map Row.cells ++ [Row.cells []])).flatten
    ∧ ((sw.callers.all (fun c =>
          !((c.toCallerState.results.map Prod.fst).contains "geomeans"))) = true →
        (sweeper_report_rows sw).all (fun r => !(rowLabel r == some "geomeans")) = true) := by
  have heq : sweeper_report_rows sw
      = [Row.cells [Cell.str (seedsHeader sw)]]
        ++ (get_pareto_table sw "BB cost").map Row.cells
        ++ [Row.cells []]
        ++ (get_pareto_table sw "max delay").map Row.cells
        ++ [Row.rawString "", Row.rawString ""]
        ++ (sw.callers.map (fun caller =>
            (get_results caller.toCallerState).map Row.cells ++ [Row.cells []])).flatten := by
    unfold sweeper_report_rows
    rw [foldl_blocks_flatten]
    simp [List.append_assoc]
  refine ⟨heq, ?_⟩
  intro h
  rw [List.all_eq_true] at h
  rw [heq]
  simp only [List.all_append, Bool.and_eq_true, and_assoc]
  refine ⟨?_, ?_, ?_, ?_, ?_, ?_⟩
  · have := random_seeds_prefix_ne
      (String.intercalate ", " ((headCallerState sw).seeds.map toString))
    simpa [rowLabel, seedsHeader] using this
  · rw [List.all_eq_true]
    intro x hx
    obtain ⟨row, hrow, rfl⟩ := List.mem_map.1 hx
    rcases pareto_row_label sw "BB cost" row hrow with hl | hl
    · rw [hl]; decide
    · rw [hl]; rfl
  · decide
  · rw [List.all_eq_true]
    intro x hx
    obtain ⟨row, hrow, rfl⟩ := List.mem_map.1 hx
    rcases pareto_row_label sw "max delay" row hrow with hl | hl
    · rw [hl]; decide
    · rw [hl]; rfl
  · decide
  · rw [List.all_eq_true]
    intro x hx
    obtain ⟨block, hblock, hxblk⟩ := List.mem_flatten.1 hx
    obtain ⟨caller, hcaller, rfl⟩ := List.mem_map.1 hblock
    rcases List.mem_append.1 hxblk with hrow | hrow
    · obtain ⟨row, hrowmem, hroweq⟩ := List.mem_map.1 hrow
      subst hroweq
      rcases get_results_row_label caller.toCallerState row hrowmem with hl | ⟨circuit, hcirc, hl⟩
      · rw [hl]; decide
      · rw [hl]
        have hmem : "geomeans" ∉ caller.toCallerState.results.map Prod.fst := by
          simpa using h caller hcaller
        have hne : circuit ≠ "geomeans" := fun hcg => hmem (hcg ▸ hcirc)
        simpa using hne
    · rw [List.mem_singleton.1 hrow]
      rfl

/-- Witness for C6 (amended) at the completed demo sweep: no circuit is
named geomeans, so its report carries no row labelled geomeans. -/
theorem sweep_report_structure_witness :
    (swDemoOut.callers.all (fun c =>
        !((c.toCallerState.results.map Prod.fst).contains "geomeans"))) = true
    ∧ (sweeper_report_rows swDemoOut).all (fun r => !(rowLabel r == some "geomeans")) = true := by
  exact ⟨by decide, (sweep_report_structure swDemoOut).2 (by decide)⟩

end PlaceAndRoute
